import Mathlib

/-!
Verification of the Offset-to-Coordinate scanner core
(src/wasm/grassfinder_wasm/src/lib.rs).

The Rust machine integers are embedded as mathematical integers with
explicit fixed-width wraparound:
* an i32 value is an Int in [-2^31, 2^31), produced by wrap32;
* an i64 value is an Int in [-2^63, 2^63), produced by wrap64;
* the unsigned 64-bit reinterpretation of an i64 is toU64, a Nat < 2^64.
Bitwise operations on i64 are performed on the unsigned representation.
-/

/-- Signed 32-bit wraparound: the i32 value congruent to n modulo 2^32. -/
def wrap32 (n : Int) : Int :=
  (n + 2147483648) % 4294967296 - 2147483648

/-- Signed 64-bit wraparound: the i64 value congruent to n modulo 2^64. -/
def wrap64 (n : Int) : Int :=
  (n + 9223372036854775808) % 18446744073709551616 - 9223372036854775808

/-- Unsigned 64-bit reinterpretation (two's complement) of an integer. -/
def toU64 (n : Int) : Nat :=
  (n % 18446744073709551616).toNat

/-- Signed reinterpretation of an unsigned 64-bit value. -/
def fromU64 (u : Nat) : Int :=
  if u < 9223372036854775808 then (u : Int) else (u : Int) - 18446744073709551616

/-- 64-bit bitwise XOR on signed values, via the unsigned representation. -/
def xor64 (a b : Int) : Int :=
  fromU64 (toU64 a ^^^ toU64 b)

/-- Embedding of fn packed_offset_12bit (src/lib.rs): the 12-bit signature.
The i64 state is carried as its unsigned 64-bit representation; signed
wrapping multiplication and addition agree with arithmetic mod 2^64 there. -/
def packed_offset_12bit (x y z : Int) (post1_12 : Bool) : Nat :=
  let yy : Int := if post1_12 then 0 else y
  let x_term : Int := wrap32 (x * 3129871)
  let z_term : Nat := toU64 (z * 116129781)
  let l : Nat := toU64 x_term ^^^ z_term ^^^ toU64 yy
  let l2 : Nat := (l * l * 42317861 + l * 11) % 18446744073709551616
  (l2 >>> 16) &&& 0xFFF

/-- The Signature Function exactly as the specification text describes it:
32-bit wraparound x term sign-extended, full 64-bit z term, y (or 0 in
y-invariant mode) XORed in, the l to l*l*42317861 + l*11 map in 64-bit
wraparound signed arithmetic, and bits 16..27 of the unsigned
reinterpretation. -/
def signature_spec (x y z : Int) (mode : Bool) : Nat :=
  let x_term : Int := wrap32 (x * 3129871)
  let z_term : Int := wrap64 (z * 116129781)
  let y_used : Int := if mode then 0 else y
  let l : Int := xor64 (xor64 x_term z_term) y_used
  let l2 : Int := wrap64 (l * l * 42317861 + l * 11)
  (toU64 l2 >>> 16) &&& 0xFFF

/-- Embedding of fn axis_nibble: the 4-bit slice of a signature for an axis. -/
def axis_nibble (v : Nat) (axis : Nat) : Nat :=
  (v >>> (axis * 4)) &&& 0xF

/-- Embedding of fn dripstone_nibble_matches: the three-zone tolerant rule. -/
def dripstone_nibble_matches (expected predicted : Nat) : Bool :=
  if expected ≤ 3 then decide (predicted ≤ 3)
  else if 12 ≤ expected then decide (12 ≤ predicted)
  else predicted == expected

/-- Embedding of fn dripstone_nibble_distance: the tolerant distance. -/
def dripstone_nibble_distance (expected predicted : Nat) : Int :=
  if expected ≤ 3 then (if predicted ≤ 3 then 0 else (predicted : Int) - 3)
  else if 12 ≤ expected then (if 12 ≤ predicted then 0 else 12 - (predicted : Int))
  else (((predicted : Int) - (expected : Int)).natAbs : Int)

/-- The tolerant distance exactly as the specification text states it:
0 when the three-zone category rule already matches, then the three
fallback cases. -/
def spec_distance (expected predicted : Nat) : Int :=
  if (expected ≤ 3 ∧ predicted ≤ 3) ∨ (12 ≤ expected ∧ 12 ≤ predicted) ∨
      predicted = expected then 0
  else if expected ≤ 3 ∧ 3 < predicted then (predicted : Int) - 3
  else if 12 ≤ expected ∧ predicted < 12 then 12 - (predicted : Int)
  else (((predicted : Int) - (expected : Int)).natAbs : Int)

/-- One constraint entry: the element i of the six parallel input slices
rel_dx, rel_dy, rel_dz, rel_packed, rel_mask, rel_drip. -/
structure Entry where
  dx : Int
  dy : Int
  dz : Int
  packed : Nat
  mask : Nat
  drip : Nat
  deriving DecidableEq, Repr

/-- Zip the six parallel input slices into entries (the scanners index all
six at the common index i; the lengths are validated to be equal). -/
def mkEntries : List Int → List Int → List Int → List Nat → List Nat →
    List Nat → List Entry
  | a :: as, b :: bs, c :: cs, p :: ps, m :: ms, d :: ds =>
      ⟨a, b, c, p, m, d⟩ :: mkEntries as bs cs ps ms ds
  | _, _, _, _, _, _ => []

/-- The signature predicted at a candidate (x,y,z) for an entry: the
offset coordinates are formed with wrapping i32 addition. -/
def predAt (e : Entry) (x y z : Int) (post : Bool) : Nat :=
  packed_offset_12bit (wrap32 (x + e.dx)) (wrap32 (y + e.dy))
    (wrap32 (z + e.dz)) post

/-- One axis of the strict drip-flagged test: skip a zero mask nibble,
exact nibble equality on axis 1, the three-zone rule on axes 0 and 2. -/
def axisOkStrict (pred exp mask axis : Nat) : Bool :=
  if (mask >>> (axis * 4)) &&& 0xF = 0 then true
  else
    let pn := axis_nibble pred axis
    let en := axis_nibble exp axis
    if axis = 1 then pn == en else dripstone_nibble_matches en pn

/-- The strict test of one entry at a candidate: full 12-bit masked
equality when the drip flag is 0, the per-axis loop otherwise. -/
def entryOk (e : Entry) (x y z : Int) (post : Bool) : Bool :=
  let pred := predAt e x y z post
  if e.drip = 0 then pred &&& e.mask == e.packed
  else
    axisOkStrict pred e.packed e.mask 0 && axisOkStrict pred e.packed e.mask 1 &&
      axisOkStrict pred e.packed e.mask 2

/-- A candidate passes the strict scan iff every entry passes (the inner
loop of fn scan_strict_box breaks at the first failing entry). -/
def candOk (entries : List Entry) (post : Bool) (x y z : Int) : Bool :=
  entries.all fun e => entryOk e x y z post

/-- The inclusive integer range a..=b as a list (empty when a > b). -/
def intRange (a b : Int) : List Int :=
  (List.range (b - a + 1).toNat).map fun i => a + i

/-- The candidate origins in scan order: y outermost, z middle, x
innermost; in y-invariant mode only z and x are enumerated at y = y0. -/
def boxCandidates (post : Bool) (x0 x1 y0 y1 z0 z1 : Int) :
    List (Int × Int × Int) :=
  if post then
    (intRange z0 z1).bind fun z =>
      (intRange x0 x1).map fun x => (x, y0, z)
  else
    (intRange y0 y1).bind fun y =>
      (intRange z0 z1).bind fun z =>
        (intRange x0 x1).map fun x => (x, y, z)

/-- The strict scan loop over the (already enumerated) candidates: a
matching candidate is appended and the loop returns as soon as the
accumulated count reaches max_matches (the check runs after the append). -/
def strictGo (entries : List Entry) (post : Bool) (maxM : Nat) :
    List (Int × Int × Int) → List (Int × Int × Int) → List (Int × Int × Int)
  | [], out => out
  | (x, y, z) :: rest, out =>
    if candOk entries post x y z then
      let out' := out ++ [(x, y, z)]
      if maxM ≤ out'.length then out' else strictGo entries post maxM rest out'
    else strictGo entries post maxM rest out

/-- Embedding of fn scan_strict_box: validation, then the nested scan. -/
def scan_strict_box (rel_dx rel_dy rel_dz : List Int)
    (rel_packed rel_mask rel_drip : List Nat) (post1_12_any_y : Bool)
    (x0 x1 y0 y1 z0 z1 : Int) (max_matches : Nat) :
    Except String (List (Int × Int × Int)) :=
  if rel_dy.length ≠ rel_dx.length ∨ rel_dz.length ≠ rel_dx.length ∨
      rel_packed.length ≠ rel_dx.length ∨ rel_mask.length ≠ rel_dx.length ∨
      rel_drip.length ≠ rel_dx.length then
    .error "Input arrays must have the same length."
  else if x0 > x1 ∨ y0 > y1 ∨ z0 > z1 then
    .error "Invalid bounds (min > max)."
  else
    .ok (strictGo (mkEntries rel_dx rel_dy rel_dz rel_packed rel_mask rel_drip)
      post1_12_any_y max_matches (boxCandidates post1_12_any_y x0 x1 y0 y1 z0 z1) [])

/-- One axis step of check_candidate: skip a zero mask nibble, otherwise
add d (d ≤ tol) or d*d (d > tol) to the score and reject as soon as the
new score exceeds max_score. -/
def stepAxis (tol maxScore : Int) (e : Entry) (pred : Nat) (axis : Nat)
    (score : Int) : Option Int :=
  if (e.mask >>> (axis * 4)) &&& 0xF = 0 then some score
  else
    let pn := axis_nibble pred axis
    let en := axis_nibble e.packed axis
    let d : Int :=
      if e.drip ≠ 0 ∧ axis ≠ 1 then dripstone_nibble_distance en pn
      else (((pn : Int) - (en : Int)).natAbs : Int)
    let score' := if d ≤ tol then score + d else score + d * d
    if maxScore < score' then none else some score'

/-- The three-axis loop of check_candidate for one entry. -/
def scoreEntry (tol maxScore : Int) (e : Entry) (pred : Nat) (score : Int) :
    Option Int :=
  (stepAxis tol maxScore e pred 0 score).bind fun s1 =>
    (stepAxis tol maxScore e pred 1 s1).bind fun s2 =>
      stepAxis tol maxScore e pred 2 s2

/-- The entry loop of check_candidate, threading the running score. -/
def checkGo (tol maxScore : Int) (x y z : Int) (post : Bool) :
    List Entry → Int → Option Int
  | [], score => some score
  | e :: rest, score =>
    match scoreEntry tol maxScore e (predAt e x y z post) score with
    | none => none
    | some s => checkGo tol maxScore x y z post rest s

/-- Embedding of the check_candidate closure: score a candidate starting
from 0, returning none on early rejection. -/
def check_candidate (entries : List Entry) (tol maxScore : Int)
    (x y z : Int) (post : Bool) : Option Int :=
  checkGo tol maxScore x y z post entries 0

/-- The per-axis score increments of one entry, in axis order: nothing for
a zero mask nibble, else d when d ≤ tol and d*d when d > tol, where d is
the tolerant distance on drip-flagged horizontal axes and the absolute
nibble difference otherwise. -/
def axisInc (tol : Int) (e : Entry) (pred : Nat) (axis : Nat) : List Int :=
  if (e.mask >>> (axis * 4)) &&& 0xF = 0 then []
  else
    let d : Int :=
      if e.drip ≠ 0 ∧ axis ≠ 1 then
        dripstone_nibble_distance (axis_nibble e.packed axis) (axis_nibble pred axis)
      else (((axis_nibble pred axis : Int) - (axis_nibble e.packed axis : Int)).natAbs : Int)
    [if d ≤ tol then d else d * d]

/-- All score increments of one entry. -/
def entryIncs (tol : Int) (e : Entry) (pred : Nat) : List Int :=
  axisInc tol e pred 0 ++ axisInc tol e pred 1 ++ axisInc tol e pred 2

/-- All score increments of a candidate, over all entries in order. -/
def candIncs (entries : List Entry) (tol : Int) (x y z : Int) (post : Bool) :
    List Int :=
  entries.bind fun e => entryIncs tol e (predAt e x y z post)

/-- Reference fold: add the increments one at a time, rejecting as soon as
the running score exceeds max_score. -/
def foldIncs (maxScore : Int) : List Int → Int → Option Int
  | [], s => some s
  | i :: rest, s =>
    if maxScore < s + i then none else foldIncs maxScore rest (s + i)

/-- The scored scan loop over the enumerated candidates: an accepted
candidate is appended with its score and the loop returns as soon as the
accumulated count reaches max_matches (the check runs after the append). -/
def scoredGo (entries : List Entry) (tol maxScore : Int) (post : Bool)
    (maxM : Nat) :
    List (Int × Int × Int) → List (Int × Int × Int × Int) →
      List (Int × Int × Int × Int)
  | [], out => out
  | (x, y, z) :: rest, out =>
    match check_candidate entries tol maxScore x y z post with
    | some s =>
      let out' := out ++ [(x, y, z, s)]
      if maxM ≤ out'.length then out'
      else scoredGo entries tol maxScore post maxM rest out'
    | none => scoredGo entries tol maxScore post maxM rest out

/-- Embedding of fn scan_scored_box: validation, then the nested scan
(tol is a u8, used as an i32 inside). -/
def scan_scored_box (rel_dx rel_dy rel_dz : List Int)
    (rel_packed rel_mask rel_drip : List Nat) (post1_12_any_y : Bool)
    (x0 x1 y0 y1 z0 z1 : Int) (max_matches : Nat) (tol : Nat)
    (max_score : Int) : Except String (List (Int × Int × Int × Int)) :=
  if rel_dy.length ≠ rel_dx.length ∨ rel_dz.length ≠ rel_dx.length ∨
      rel_packed.length ≠ rel_dx.length ∨ rel_mask.length ≠ rel_dx.length ∨
      rel_drip.length ≠ rel_dx.length then
    .error "Input arrays must have the same length."
  else if x0 > x1 ∨ y0 > y1 ∨ z0 > z1 then
    .error "Invalid bounds (min > max)."
  else
    .ok (scoredGo (mkEntries rel_dx rel_dy rel_dz rel_packed rel_mask rel_drip)
      (tol : Int) max_score post1_12_any_y max_matches
      (boxCandidates post1_12_any_y x0 x1 y0 y1 z0 z1) [])

/-- The quadruple an accepted candidate contributes to the scored output. -/
def scoreQuad (entries : List Entry) (tol maxScore : Int) (post : Bool)
    (c : Int × Int × Int) : Option (Int × Int × Int × Int) :=
  (check_candidate entries tol maxScore c.1 c.2.1 c.2.2 post).map fun s =>
    (c.1, c.2.1, c.2.2, s)

theorem toU64_lt (n : Int) : toU64 n < 18446744073709551616 := by
  unfold toU64; omega

theorem toU64_emod (n : Int) : (toU64 n : Int) = n % 18446744073709551616 := by
  unfold toU64; omega

theorem toU64_fromU64 (u : Nat) (h : u < 18446744073709551616) :
    toU64 (fromU64 u) = u := by
  unfold toU64 fromU64
  split <;> omega

theorem toU64_wrap64 (n : Int) : toU64 (wrap64 n) = toU64 n := by
  unfold toU64 wrap64; omega

theorem toU64_xor64 (a b : Int) : toU64 (xor64 a b) = toU64 a ^^^ toU64 b := by
  unfold xor64
  refine toU64_fromU64 _ ?_
  have h : (18446744073709551616 : Nat) = 2 ^ 64 := by norm_num
  rw [h]
  exact Nat.xor_lt_two_pow (h ▸ toU64_lt a) (h ▸ toU64_lt b)

set_option maxHeartbeats 1000000 in
theorem toU64_poly (l : Int) :
    toU64 (wrap64 (l * l * 42317861 + l * 11)) =
      (toU64 l * toU64 l * 42317861 + toU64 l * 11) % 18446744073709551616 := by
  rw [toU64_wrap64]
  have hmod : Int.ModEq 18446744073709551616 l (toU64 l : Int) := by
    unfold Int.ModEq
    rw [toU64_emod]
    omega
  have hpoly :
      Int.ModEq 18446744073709551616 (l * l * 42317861 + l * 11)
        ((toU64 l : Int) * (toU64 l : Int) * 42317861 + (toU64 l : Int) * 11) :=
    ((hmod.mul hmod).mul (Int.ModEq.refl 42317861)).add (hmod.mul (Int.ModEq.refl 11))
  have heq :
      (l * l * 42317861 + l * 11) % 18446744073709551616 =
        ((toU64 l * toU64 l * 42317861 + toU64 l * 11 : Nat) : Int) %
          18446744073709551616 := by
    have h2 : ((toU64 l * toU64 l * 42317861 + toU64 l * 11 : Nat) : Int) =
        (toU64 l : Int) * (toU64 l : Int) * 42317861 + (toU64 l : Int) * 11 := by
      push_cast
      ring
    rw [h2]
    exact hpoly
  generalize hk : (toU64 l * toU64 l * 42317861 + toU64 l * 11 : Nat) = k at heq ⊢
  unfold toU64
  rw [heq]
  clear heq hpoly hmod hk
  omega

/-- C1: the Signature Function computes exactly the specified 12-bit value:
32-bit wrapped x term sign-extended to 64 bits, 64-bit wrapped z term,
y (or 0 with the mode flag) XORed in, the map l to l*l*42317861 + l*11 in
64-bit wraparound arithmetic, then bits 16..27 of the unsigned
reinterpretation; the result is a 12-bit value. -/
theorem C1_signature_function_exact (x y z : Int) (mode : Bool) :
    packed_offset_12bit x y z mode = signature_spec x y z mode ∧
    packed_offset_12bit x y z mode < 4096 := by
  constructor
  · simp only [packed_offset_12bit, signature_spec]
    have hl :
        toU64 (xor64 (xor64 (wrap32 (x * 3129871)) (wrap64 (z * 116129781)))
            (if mode then 0 else y)) =
          toU64 (wrap32 (x * 3129871)) ^^^ toU64 (z * 116129781) ^^^
            toU64 (if mode then 0 else y) := by
      rw [toU64_xor64, toU64_xor64, toU64_wrap64]
    rw [toU64_poly, hl]
  · have h : ∀ n : Nat, n &&& 0xFFF < 4096 := fun n =>
      Nat.lt_of_le_of_lt Nat.and_le_right (by norm_num)
    exact h _

/-- C8: with the y-invariant mode flag set, the signature does not depend
on y: for fixed x and z every y gives the same result. -/
theorem C8_y_invariance (x z y1 y2 : Int) :
    packed_offset_12bit x y1 z true = packed_offset_12bit x y2 z true := rfl

/-! ### Nibble matcher (fn axis_nibble, dripstone_nibble_matches,
dripstone_nibble_distance in src/lib.rs) -/

theorem drip_matches_iff (en pn : Nat) :
    dripstone_nibble_matches en pn = true ↔
      ((en ≤ 3 ∧ pn ≤ 3) ∨ (12 ≤ en ∧ 12 ≤ pn) ∨ pn = en) := by
  unfold dripstone_nibble_matches
  split
  · simp only [decide_eq_true_eq]
    omega
  · split
    · simp only [decide_eq_true_eq]
      omega
    · simp only [beq_iff_eq]
      omega

/-- C5: on 4-bit nibbles the tolerant distance is 0 when the three-zone
rule matches, else predicted-3 for a low expected nibble, 12-predicted for
a high one, and the absolute difference otherwise; and the four listed
concrete values hold. -/
theorem C5_tolerant_distance :
    (∀ e, e < 16 → ∀ p, p < 16 →
      dripstone_nibble_distance e p = spec_distance e p) ∧
    dripstone_nibble_distance 2 5 = 2 ∧
    dripstone_nibble_distance 13 9 = 3 ∧
    dripstone_nibble_distance 7 9 = 2 ∧
    dripstone_nibble_distance 2 1 = 0 := by
  refine ⟨?_, by decide, by decide, by decide, by decide⟩
  decide

/-- Witness for C5 at the concrete nibble pair (2, 5). -/
theorem C5_tolerant_distance_witness :
    dripstone_nibble_distance 2 5 = spec_distance 2 5 :=
  C5_tolerant_distance.1 2 (by decide) 5 (by decide)

/-! ### Constraint entries and the strict per-entry test
(the per-candidate body of fn scan_strict_box in src/lib.rs) -/

/-- C3: for an entry whose drip flag is 0 the strict test is the single
12-bit bitwise equality (predicted AND mask) = expected. -/
theorem C3_exact_constraint (e : Entry) (x y z : Int) (post : Bool)
    (h : e.drip = 0) :
    entryOk e x y z post = true ↔ predAt e x y z post &&& e.mask = e.packed := by
  simp only [entryOk, h, if_pos, beq_iff_eq]

/-- Witness for C3 at a concrete entry with drip flag 0. -/
theorem C3_exact_constraint_witness :
    entryOk ⟨0, 0, 0, 0, 0, 0⟩ 0 0 0 false = true ↔
      predAt ⟨0, 0, 0, 0, 0, 0⟩ 0 0 0 false &&& 0 = 0 :=
  C3_exact_constraint ⟨0, 0, 0, 0, 0, 0⟩ 0 0 0 false rfl

theorem axisOkStrict_iff (pred exp mask a : Nat) :
    axisOkStrict pred exp mask a = true ↔
      ((mask >>> (a * 4)) &&& 0xF ≠ 0 →
        ((a = 1 → axis_nibble pred a = axis_nibble exp a) ∧
         (a ≠ 1 →
           ((axis_nibble exp a ≤ 3 ∧ axis_nibble pred a ≤ 3) ∨
            (12 ≤ axis_nibble exp a ∧ 12 ≤ axis_nibble pred a) ∨
            axis_nibble pred a = axis_nibble exp a)))) := by
  unfold axisOkStrict
  split
  · rename_i hm
    simp [hm]
  · rename_i hm
    split
    · rename_i ha
      subst ha
      simp only [beq_iff_eq]
      constructor
      · intro hpe _
        exact ⟨fun _ => hpe, fun hne => by simp at hne⟩
      · intro hall
        exact (hall hm).1 (by trivial)
    · rename_i ha
      rw [drip_matches_iff]
      constructor
      · intro hz _
        exact ⟨fun h1 => absurd h1 ha, fun _ => hz⟩
      · intro hall
        exact (hall hm).2 ha

/-- C4: for a drip-flagged entry the strict test holds iff every axis with
a nonzero mask nibble passes: exact nibble equality on axis 1, and on
axes 0 and 2 the rule (expected ≤ 3 and predicted ≤ 3), or
(expected ≥ 12 and predicted ≥ 12), or predicted = expected. -/
theorem C4_drip_constraint (e : Entry) (x y z : Int) (post : Bool)
    (h : e.drip ≠ 0) :
    entryOk e x y z post = true ↔
      ∀ a, a < 3 → (e.mask >>> (a * 4)) &&& 0xF ≠ 0 →
        ((a = 1 → axis_nibble (predAt e x y z post) a = axis_nibble e.packed a) ∧
         (a ≠ 1 →
           ((axis_nibble e.packed a ≤ 3 ∧ axis_nibble (predAt e x y z post) a ≤ 3) ∨
            (12 ≤ axis_nibble e.packed a ∧ 12 ≤ axis_nibble (predAt e x y z post) a) ∨
            axis_nibble (predAt e x y z post) a = axis_nibble e.packed a))) := by
  simp only [entryOk, if_neg h, Bool.and_eq_true, axisOkStrict_iff]
  constructor
  · rintro ⟨⟨h0, h1⟩, h2⟩ a ha
    interval_cases a
    · simpa using h0
    · simpa using h1
    · simpa using h2
  · intro hall
    refine ⟨⟨?_, ?_⟩, ?_⟩
    · simpa using hall 0 (by omega)
    · simpa using hall 1 (by omega)
    · simpa using hall 2 (by omega)

/-- Witness for C4 at a concrete drip-flagged entry. -/
theorem C4_drip_constraint_witness :
    entryOk ⟨0, 0, 0, 0, 0, 1⟩ 0 0 0 false = true ↔
      ∀ a, a < 3 → ((0 : Nat) >>> (a * 4)) &&& 0xF ≠ 0 →
        ((a = 1 →
            axis_nibble (predAt ⟨0, 0, 0, 0, 0, 1⟩ 0 0 0 false) a =
              axis_nibble 0 a) ∧
         (a ≠ 1 →
           ((axis_nibble 0 a ≤ 3 ∧
               axis_nibble (predAt ⟨0, 0, 0, 0, 0, 1⟩ 0 0 0 false) a ≤ 3) ∨
            (12 ≤ axis_nibble 0 a ∧
               12 ≤ axis_nibble (predAt ⟨0, 0, 0, 0, 0, 1⟩ 0 0 0 false) a) ∨
            axis_nibble (predAt ⟨0, 0, 0, 0, 0, 1⟩ 0 0 0 false) a =
              axis_nibble 0 a))) :=
  C4_drip_constraint ⟨0, 0, 0, 0, 0, 1⟩ 0 0 0 false (by decide)

/-! ### Strict box scanner (fn scan_strict_box in src/lib.rs) -/

theorem take_max_one_cons {α : Type} (a : α) (l : List α) (k : Nat) :
    (a :: l).take (max k 1) = a :: l.take (max k 1 - 1) := by
  have h : max k 1 = (max k 1 - 1) + 1 := by omega
  conv_lhs => rw [h]
  rw [List.take_succ_cons]

theorem strictGo_eq (entries : List Entry) (post : Bool) (maxM : Nat)
    (cands : List (Int × Int × Int)) :
    ∀ out, strictGo entries post maxM cands out =
      out ++ (cands.filter fun c => candOk entries post c.1 c.2.1 c.2.2).take
        (max (maxM - out.length) 1) := by
  induction cands with
  | nil => intro out; simp [strictGo]
  | cons c rest ih =>
    obtain ⟨x, y, z⟩ := c
    intro out
    by_cases hc : candOk entries post x y z
    · by_cases hstop : maxM ≤ out.length + 1
      · simp only [strictGo, hc, if_pos, List.filter_cons, List.length_append,
          List.length_cons, List.length_nil]
        rw [take_max_one_cons]
        have h0 : max (maxM - out.length) 1 - 1 = 0 := by omega
        rw [h0, List.take_zero]
        have hcond : maxM ≤ out.length + (0 + 1) := by omega
        rw [if_pos hcond]
      · simp only [strictGo, hc, if_pos, List.filter_cons, List.length_append,
          List.length_cons, List.length_nil]
        have hcond : ¬(maxM ≤ out.length + (0 + 1)) := by omega
        rw [if_neg hcond]
        rw [ih (out ++ [(x, y, z)]), take_max_one_cons]
        have hlen : (out ++ [(x, y, z)]).length = out.length + 1 := by simp
        rw [hlen]
        have h1 : max (maxM - (out.length + 1)) 1 = max (maxM - out.length) 1 - 1 := by
          omega
        rw [h1]
        simp [List.append_assoc]
    · simp only [strictGo, hc, if_neg, List.filter_cons]
      rw [if_neg (by simp [hc])]
      exact ih out

theorem scan_strict_box_eq (rel_dx rel_dy rel_dz : List Int)
    (rel_packed rel_mask rel_drip : List Nat) (post : Bool)
    (x0 x1 y0 y1 z0 z1 : Int) (maxM : Nat)
    (h1 : rel_dy.length = rel_dx.length) (h2 : rel_dz.length = rel_dx.length)
    (h3 : rel_packed.length = rel_dx.length) (h4 : rel_mask.length = rel_dx.length)
    (h5 : rel_drip.length = rel_dx.length)
    (hx : x0 ≤ x1) (hy : y0 ≤ y1) (hz : z0 ≤ z1) :
    scan_strict_box rel_dx rel_dy rel_dz rel_packed rel_mask rel_drip post
        x0 x1 y0 y1 z0 z1 maxM =
      .ok (((boxCandidates post x0 x1 y0 y1 z0 z1).filter fun c =>
          candOk (mkEntries rel_dx rel_dy rel_dz rel_packed rel_mask rel_drip)
            post c.1 c.2.1 c.2.2).take (max maxM 1)) := by
  unfold scan_strict_box
  rw [if_neg (by simp [h1, h2, h3, h4, h5]), if_neg (by omega), strictGo_eq]
  simp

/-- C2 (amended: for max_matches ≥ 1): the strict scan over a valid box is
exactly the max_matches-prefix of the filtered candidate list enumerated
with y outermost, z middle, x innermost (z, x at y0 in y-invariant mode). -/
theorem C2_strict_prefix_truncation (rel_dx rel_dy rel_dz : List Int)
    (rel_packed rel_mask rel_drip : List Nat) (post : Bool)
    (x0 x1 y0 y1 z0 z1 : Int) (maxM : Nat)
    (h1 : rel_dy.length = rel_dx.length) (h2 : rel_dz.length = rel_dx.length)
    (h3 : rel_packed.length = rel_dx.length) (h4 : rel_mask.length = rel_dx.length)
    (h5 : rel_drip.length = rel_dx.length)
    (hx : x0 ≤ x1) (hy : y0 ≤ y1) (hz : z0 ≤ z1) (hm : 1 ≤ maxM) :
    scan_strict_box rel_dx rel_dy rel_dz rel_packed rel_mask rel_drip post
        x0 x1 y0 y1 z0 z1 maxM =
      .ok (((boxCandidates post x0 x1 y0 y1 z0 z1).filter fun c =>
          candOk (mkEntries rel_dx rel_dy rel_dz rel_packed rel_mask rel_drip)
            post c.1 c.2.1 c.2.2).take maxM) := by
  rw [scan_strict_box_eq rel_dx rel_dy rel_dz rel_packed rel_mask rel_drip post
      x0 x1 y0 y1 z0 z1 maxM h1 h2 h3 h4 h5 hx hy hz, Nat.max_eq_left hm]

/-- Witness for C2 at a concrete input with max_matches = 1. -/
theorem C2_strict_prefix_truncation_witness :
    scan_strict_box [] [] [] [] [] [] false 0 0 0 0 0 0 1 =
      .ok (((boxCandidates false 0 0 0 0 0 0).filter fun c =>
          candOk (mkEntries [] [] [] [] [] []) false c.1 c.2.1 c.2.2).take 1) :=
  C2_strict_prefix_truncation [] [] [] [] [] [] false 0 0 0 0 0 0 1 rfl rfl rfl rfl
    rfl (by omega) (by omega) (by omega) (by omega)

/-- Counterexample to C2 as stated: with max_matches = 0 and a matching
single-point box (no constraint entries, so every candidate matches) the
scan returns one triple, not the empty prefix of length 0. -/
theorem C2_counterexample :
    scan_strict_box [] [] [] [] [] [] false 0 0 0 0 0 0 0 = .ok [(0, 0, 0)] ∧
      ¬([((0 : Int), (0 : Int), (0 : Int))].length ≤ 0) :=
  ⟨rfl, by simp⟩

theorem intRange_self (a : Int) : intRange a a = [a] := by
  simp [intRange, show (a - a + 1).toNat = 1 from by omega, List.range_succ]

theorem boxCandidates_point (post : Bool) (x y z : Int) :
    boxCandidates post x x y y z z = [(x, y, z)] := by
  cases post <;> simp [boxCandidates, intRange_self]

theorem entryOk_mask_zero (e : Entry) (x y z : Int) (post : Bool)
    (hmask : e.mask = 0) (h : e.drip ≠ 0 ∨ e.packed = 0) :
    entryOk e x y z post = true := by
  simp only [entryOk]
  by_cases hd : e.drip = 0
  · rw [if_pos hd]
    have hp : e.packed = 0 := by tauto
    rw [hmask, hp]
    simp
  · rw [if_neg hd]
    have hax : ∀ a, axisOkStrict (predAt e x y z post) e.packed e.mask a = true := by
      intro a
      unfold axisOkStrict
      rw [hmask, if_pos (by simp)]
    simp [hax]

/-- C9 (amended: the entry must be drip-flagged or have expected value 0;
a non-drip entry with mask 0 matches only expected 0): a single-point box
with one mask-0 entry returns exactly that coordinate, for max_matches ≥ 1. -/
theorem C9_degenerate_box (dx dy dz : Int) (exp drip : Nat) (post : Bool)
    (x y z : Int) (maxM : Nat) (hm : 1 ≤ maxM) (h : drip ≠ 0 ∨ exp = 0) :
    scan_strict_box [dx] [dy] [dz] [exp] [0] [drip] post x x y y z z maxM =
      .ok [(x, y, z)] := by
  rw [scan_strict_box_eq [dx] [dy] [dz] [exp] [0] [drip] post x x y y z z maxM
      rfl rfl rfl rfl rfl le_rfl le_rfl le_rfl, boxCandidates_point]
  have hok : entryOk ⟨dx, dy, dz, exp, 0, drip⟩ x y z post = true :=
    entryOk_mask_zero ⟨dx, dy, dz, exp, 0, drip⟩ x y z post rfl h
  have hcand : candOk (mkEntries [dx] [dy] [dz] [exp] [0] [drip]) post x y z
      = true := by
    simp [candOk, mkEntries, hok]
  simp [hcand, take_max_one_cons]

/-- Witness for C9 at a concrete degenerate box. -/
theorem C9_degenerate_box_witness :
    scan_strict_box [0] [0] [0] [0] [0] [0] false 0 0 0 0 0 0 1 =
      .ok [(0, 0, 0)] :=
  C9_degenerate_box 0 0 0 0 0 false 0 0 0 1 (by omega) (Or.inr rfl)

/-- Counterexample to C9 as stated: with drip flag 0, mask 0 and expected
value 1 the entry never matches (predicted AND 0 is 0, not 1), so the
single-point box returns no match at all. -/
theorem C9_counterexample :
    scan_strict_box [0] [0] [0] [1] [0] [0] false 0 0 0 0 0 0 1 = .ok [] ∧
      ([] : List (Int × Int × Int)) ≠ [(0, 0, 0)] :=
  ⟨rfl, by simp⟩

/-! ### Scored box scanner (fn scan_scored_box and its closure
check_candidate in src/lib.rs) -/

theorem dripstone_nibble_distance_nonneg (en pn : Nat) :
    0 ≤ dripstone_nibble_distance en pn := by
  unfold dripstone_nibble_distance
  split
  · split <;> omega
  · split
    · split <;> omega
    · omega

theorem inc_nonneg (tol d : Int) (hd : 0 ≤ d) :
    0 ≤ if d ≤ tol then d else d * d := by
  split
  · exact hd
  · exact mul_nonneg hd hd

theorem axisInc_nonneg (tol : Int) (e : Entry) (pred : Nat) (axis : Nat) :
    ∀ i ∈ axisInc tol e pred axis, 0 ≤ i := by
  unfold axisInc
  split
  · simp
  · intro i hi
    simp only [List.mem_singleton] at hi
    subst hi
    apply inc_nonneg
    split
    · exact dripstone_nibble_distance_nonneg _ _
    · omega

theorem entryIncs_nonneg (tol : Int) (e : Entry) (pred : Nat) :
    ∀ i ∈ entryIncs tol e pred, 0 ≤ i := by
  intro i hi
  unfold entryIncs at hi
  simp only [List.mem_append] at hi
  rcases hi with (h | h) | h
  · exact axisInc_nonneg _ _ _ _ i h
  · exact axisInc_nonneg _ _ _ _ i h
  · exact axisInc_nonneg _ _ _ _ i h

theorem candIncs_nonneg (entries : List Entry) (tol : Int) (x y z : Int)
    (post : Bool) : ∀ i ∈ candIncs entries tol x y z post, 0 ≤ i := by
  intro i hi
  unfold candIncs at hi
  simp only [List.mem_bind] at hi
  obtain ⟨e, _, hi⟩ := hi
  exact entryIncs_nonneg _ _ _ i hi

theorem foldIncs_append (maxScore : Int) (a b : List Int) :
    ∀ s, foldIncs maxScore (a ++ b) s =
      (foldIncs maxScore a s).bind fun s1 => foldIncs maxScore b s1 := by
  induction a with
  | nil => intro s; simp [foldIncs]
  | cons i rest ih =>
    intro s
    simp only [List.cons_append, foldIncs]
    split
    · simp
    · exact ih (s + i)

theorem foldIncs_le (maxScore : Int) :
    ∀ (incs : List Int), (∀ i ∈ incs, 0 ≤ i) → ∀ s, s + incs.sum ≤ maxScore →
      foldIncs maxScore incs s = some (s + incs.sum) := by
  intro incs
  induction incs with
  | nil => intro _ s _; simp [foldIncs]
  | cons i rest ih =>
    intro hpos s hle
    have hsum : 0 ≤ rest.sum := List.sum_nonneg fun j hj => hpos j (by simp [hj])
    simp only [List.sum_cons] at hle ⊢
    simp only [foldIncs]
    rw [if_neg (by omega), ih (fun j hj => hpos j (by simp [hj])) (s + i) (by omega)]
    congr 1
    omega

theorem foldIncs_gt (maxScore : Int) :
    ∀ (incs : List Int), (∀ i ∈ incs, 0 ≤ i) → incs ≠ [] → ∀ s,
      maxScore < s + incs.sum → foldIncs maxScore incs s = none := by
  intro incs
  induction incs with
  | nil => intro _ hne; exact absurd rfl hne
  | cons i rest ih =>
    intro hpos _ s hgt
    simp only [List.sum_cons] at hgt
    simp only [foldIncs]
    split
    · rfl
    · rename_i hle
      by_cases hr : rest = []
      · subst hr
        exfalso
        simp only [List.sum_nil] at hgt
        omega
      · exact ih (fun j hj => hpos j (by simp [hj])) hr (s + i) (by omega)

theorem foldIncs_single (maxScore i s : Int) :
    foldIncs maxScore [i] s =
      if maxScore < s + i then none else some (s + i) := by
  simp only [foldIncs]

theorem step_if_add (tol maxScore d s : Int) :
    (if maxScore < (if d ≤ tol then s + d else s + d * d) then none
     else some (if d ≤ tol then s + d else s + d * d)) =
      foldIncs maxScore [if d ≤ tol then d else d * d] s := by
  rw [foldIncs_single]
  by_cases hd : d ≤ tol
  · simp [hd]
  · simp [hd]

theorem stepAxis_eq (tol maxScore : Int) (e : Entry) (pred : Nat) (axis : Nat)
    (s : Int) :
    stepAxis tol maxScore e pred axis s =
      foldIncs maxScore (axisInc tol e pred axis) s := by
  simp only [stepAxis, axisInc]
  split
  · simp [foldIncs]
  · exact step_if_add _ _ _ _

theorem scoreEntry_eq (tol maxScore : Int) (e : Entry) (pred : Nat) (s : Int) :
    scoreEntry tol maxScore e pred s =
      foldIncs maxScore (entryIncs tol e pred) s := by
  unfold scoreEntry entryIncs
  simp only [stepAxis_eq]
  rw [foldIncs_append, foldIncs_append]
  simp [Option.bind_assoc]

theorem checkGo_eq (tol maxScore : Int) (x y z : Int) (post : Bool) :
    ∀ (entries : List Entry) (s : Int),
      checkGo tol maxScore x y z post entries s =
        foldIncs maxScore (candIncs entries tol x y z post) s := by
  intro entries
  induction entries with
  | nil => intro s; simp [checkGo, candIncs, foldIncs]
  | cons e rest ih =>
    intro s
    simp only [checkGo, candIncs, List.cons_bind]
    rw [scoreEntry_eq, foldIncs_append]
    cases hfold : foldIncs maxScore (entryIncs tol e (predAt e x y z post)) s with
    | none => simp
    | some s1 =>
      simp only [Option.bind_some]
      exact ih s1

/-- C6 (amended): check_candidate accumulates, per entry and per axis with
a nonzero mask nibble, d when d ≤ tol and d*d when d > tol (d the tolerant
distance on drip-flagged axes 0 and 2, the absolute nibble difference
otherwise), compares after every increment and rejects with none as soon
as the running score exceeds max_score; hence it returns the total exactly
when it is within max_score or no axis was activated at all — a candidate
with no activated axes is emitted with score 0 even when max_score < 0. -/
theorem C6_scored_accumulation (entries : List Entry) (tol maxScore : Int)
    (x y z : Int) (post : Bool) :
    check_candidate entries tol maxScore x y z post =
      if candIncs entries tol x y z post = [] then some 0
      else if (candIncs entries tol x y z post).sum ≤ maxScore then
        some ((candIncs entries tol x y z post).sum)
      else none := by
  unfold check_candidate
  rw [checkGo_eq]
  have hpos := candIncs_nonneg entries tol x y z post
  by_cases hne : candIncs entries tol x y z post = []
  · rw [hne, if_pos rfl]
    simp [foldIncs]
  · rw [if_neg hne]
    by_cases hle : (candIncs entries tol x y z post).sum ≤ maxScore
    · rw [if_pos hle, foldIncs_le maxScore _ hpos 0 (by omega)]
      simp
    · rw [if_neg hle, foldIncs_gt maxScore _ hpos hne 0 (by omega)]

/-! ### Scored scanner top level (fn scan_scored_box in src/lib.rs) -/

theorem scoredGo_eq (entries : List Entry) (tol maxScore : Int) (post : Bool)
    (maxM : Nat) (cands : List (Int × Int × Int)) :
    ∀ out, scoredGo entries tol maxScore post maxM cands out =
      out ++ (cands.filterMap (scoreQuad entries tol maxScore post)).take
        (max (maxM - out.length) 1) := by
  induction cands with
  | nil => intro out; simp [scoredGo]
  | cons c rest ih =>
    obtain ⟨x, y, z⟩ := c
    intro out
    cases hc : check_candidate entries tol maxScore x y z post with
    | none =>
      have hq : scoreQuad entries tol maxScore post (x, y, z) = none := by
        simp [scoreQuad, hc]
      simp only [scoredGo, hc, List.filterMap_cons, hq]
      exact ih out
    | some s =>
      have hq : scoreQuad entries tol maxScore post (x, y, z) = some (x, y, z, s) := by
        simp [scoreQuad, hc]
      by_cases hstop : maxM ≤ out.length + 1
      · simp only [scoredGo, hc, List.filterMap_cons, hq, List.length_append,
          List.length_cons, List.length_nil]
        rw [take_max_one_cons]
        have h0 : max (maxM - out.length) 1 - 1 = 0 := by omega
        rw [h0, List.take_zero]
        have hcond : maxM ≤ out.length + (0 + 1) := by omega
        rw [if_pos hcond]
      · simp only [scoredGo, hc, List.filterMap_cons, hq, List.length_append,
          List.length_cons, List.length_nil]
        have hcond : ¬(maxM ≤ out.length + (0 + 1)) := by omega
        rw [if_neg hcond]
        rw [ih (out ++ [(x, y, z, s)]), take_max_one_cons]
        have hlen : (out ++ [(x, y, z, s)]).length = out.length + 1 := by simp
        rw [hlen]
        have h1 : max (maxM - (out.length + 1)) 1 = max (maxM - out.length) 1 - 1 := by
          omega
        rw [h1]
        simp [List.append_assoc]

theorem scan_scored_box_eq (rel_dx rel_dy rel_dz : List Int)
    (rel_packed rel_mask rel_drip : List Nat) (post : Bool)
    (x0 x1 y0 y1 z0 z1 : Int) (maxM : Nat) (tol : Nat) (maxScore : Int)
    (h1 : rel_dy.length = rel_dx.length) (h2 : rel_dz.length = rel_dx.length)
    (h3 : rel_packed.length = rel_dx.length) (h4 : rel_mask.length = rel_dx.length)
    (h5 : rel_drip.length = rel_dx.length)
    (hx : x0 ≤ x1) (hy : y0 ≤ y1) (hz : z0 ≤ z1) :
    scan_scored_box rel_dx rel_dy rel_dz rel_packed rel_mask rel_drip post
        x0 x1 y0 y1 z0 z1 maxM tol maxScore =
      .ok (((boxCandidates post x0 x1 y0 y1 z0 z1).filterMap
          (scoreQuad (mkEntries rel_dx rel_dy rel_dz rel_packed rel_mask rel_drip)
            (tol : Int) maxScore post)).take (max maxM 1)) := by
  unfold scan_scored_box
  rw [if_neg (by simp [h1, h2, h3, h4, h5]), if_neg (by omega), scoredGo_eq]
  simp

/-- Counterexample to C6 as stated: a candidate with no constraint entries
activates no axis, so the score 0 is emitted even though max_score = -1,
giving an emitted quadruple whose score exceeds max_score. -/
theorem C6_counterexample :
    scan_scored_box [] [] [] [] [] [] false 0 0 0 0 0 0 5 0 (-1) =
      .ok [(0, 0, 0, 0)] ∧ ¬((0 : Int) ≤ -1) :=
  ⟨rfl, by omega⟩

/-- C7: both scanners report a length-mismatch error when the six input
sequences do not share one length, and (with equal lengths) a bounds error
when any axis has min > max; an erroring call carries no output. -/
theorem C7_validation (rel_dx rel_dy rel_dz : List Int)
    (rel_packed rel_mask rel_drip : List Nat) (post : Bool)
    (x0 x1 y0 y1 z0 z1 : Int) (maxM tol : Nat) (maxScore : Int) :
    ((rel_dy.length ≠ rel_dx.length ∨ rel_dz.length ≠ rel_dx.length ∨
        rel_packed.length ≠ rel_dx.length ∨ rel_mask.length ≠ rel_dx.length ∨
        rel_drip.length ≠ rel_dx.length) →
      scan_strict_box rel_dx rel_dy rel_dz rel_packed rel_mask rel_drip post
          x0 x1 y0 y1 z0 z1 maxM =
        .error "Input arrays must have the same length." ∧
      scan_scored_box rel_dx rel_dy rel_dz rel_packed rel_mask rel_drip post
          x0 x1 y0 y1 z0 z1 maxM tol maxScore =
        .error "Input arrays must have the same length.") ∧
    (rel_dy.length = rel_dx.length → rel_dz.length = rel_dx.length →
      rel_packed.length = rel_dx.length → rel_mask.length = rel_dx.length →
      rel_drip.length = rel_dx.length → (x0 > x1 ∨ y0 > y1 ∨ z0 > z1) →
      scan_strict_box rel_dx rel_dy rel_dz rel_packed rel_mask rel_drip post
          x0 x1 y0 y1 z0 z1 maxM =
        .error "Invalid bounds (min > max)." ∧
      scan_scored_box rel_dx rel_dy rel_dz rel_packed rel_mask rel_drip post
          x0 x1 y0 y1 z0 z1 maxM tol maxScore =
        .error "Invalid bounds (min > max).") := by
  constructor
  · intro h
    constructor
    · unfold scan_strict_box
      rw [if_pos h]
    · unfold scan_scored_box
      rw [if_pos h]
  · intro h1 h2 h3 h4 h5 hb
    constructor
    · unfold scan_strict_box
      rw [if_neg (by simp [h1, h2, h3, h4, h5]), if_pos hb]
    · unfold scan_scored_box
      rw [if_neg (by simp [h1, h2, h3, h4, h5]), if_pos hb]

/-- Witness for C7: a length mismatch and an inverted x axis, each on a
concrete call of both scanners. -/
theorem C7_validation_witness :
    (scan_strict_box [0] [] [] [] [] [] false 0 0 0 0 0 0 1 =
        .error "Input arrays must have the same length." ∧
      scan_scored_box [0] [] [] [] [] [] false 0 0 0 0 0 0 1 0 0 =
        .error "Input arrays must have the same length.") ∧
    (scan_strict_box [] [] [] [] [] [] false 1 0 0 0 0 0 1 =
        .error "Invalid bounds (min > max)." ∧
      scan_scored_box [] [] [] [] [] [] false 1 0 0 0 0 0 1 0 0 =
        .error "Invalid bounds (min > max).") :=
  ⟨(C7_validation [0] [] [] [] [] [] false 0 0 0 0 0 0 1 0 0).1 (by simp),
   (C7_validation [] [] [] [] [] [] false 1 0 0 0 0 0 1 0 0).2 rfl rfl rfl rfl rfl
     (by omega)⟩

/-- C10: with max_matches = 0 the cap is only tested after an append, so a
box whose filtered (respectively score-accepted) candidate list is
nonempty yields exactly the first match, not the empty sequence — for the
strict and the scored scanner alike. -/
theorem C10_max_matches_zero (rel_dx rel_dy rel_dz : List Int)
    (rel_packed rel_mask rel_drip : List Nat) (post : Bool)
    (x0 x1 y0 y1 z0 z1 : Int) (tol : Nat) (maxScore : Int)
    (h1 : rel_dy.length = rel_dx.length) (h2 : rel_dz.length = rel_dx.length)
    (h3 : rel_packed.length = rel_dx.length) (h4 : rel_mask.length = rel_dx.length)
    (h5 : rel_drip.length = rel_dx.length)
    (hx : x0 ≤ x1) (hy : y0 ≤ y1) (hz : z0 ≤ z1) :
    (∀ c cs, ((boxCandidates post x0 x1 y0 y1 z0 z1).filter fun d =>
        candOk (mkEntries rel_dx rel_dy rel_dz rel_packed rel_mask rel_drip)
          post d.1 d.2.1 d.2.2) = c :: cs →
      scan_strict_box rel_dx rel_dy rel_dz rel_packed rel_mask rel_drip post
        x0 x1 y0 y1 z0 z1 0 = .ok [c]) ∧
    (∀ q qs, (boxCandidates post x0 x1 y0 y1 z0 z1).filterMap
        (scoreQuad (mkEntries rel_dx rel_dy rel_dz rel_packed rel_mask rel_drip)
          (tol : Int) maxScore post) = q :: qs →
      scan_scored_box rel_dx rel_dy rel_dz rel_packed rel_mask rel_drip post
        x0 x1 y0 y1 z0 z1 0 tol maxScore = .ok [q]) := by
  constructor
  · intro c cs hf
    rw [scan_strict_box_eq rel_dx rel_dy rel_dz rel_packed rel_mask rel_drip post
        x0 x1 y0 y1 z0 z1 0 h1 h2 h3 h4 h5 hx hy hz, hf]
    simp
  · intro q qs hf
    rw [scan_scored_box_eq rel_dx rel_dy rel_dz rel_packed rel_mask rel_drip post
        x0 x1 y0 y1 z0 z1 0 tol maxScore h1 h2 h3 h4 h5 hx hy hz, hf]
    simp

/-- Witness for C10: a single-point box with no constraint entries, where
both scanners called with max_matches = 0 return one match. -/
theorem C10_max_matches_zero_witness :
    scan_strict_box [] [] [] [] [] [] false 0 0 0 0 0 0 0 = .ok [(0, 0, 0)] ∧
      scan_scored_box [] [] [] [] [] [] false 0 0 0 0 0 0 0 0 0 =
        .ok [(0, 0, 0, 0)] :=
  ⟨(C10_max_matches_zero [] [] [] [] [] [] false 0 0 0 0 0 0 0 0 rfl rfl rfl rfl
      rfl (by omega) (by omega) (by omega)).1 (0, 0, 0) [] (by decide),
   (C10_max_matches_zero [] [] [] [] [] [] false 0 0 0 0 0 0 0 0 rfl rfl rfl rfl
      rfl (by omega) (by omega) (by omega)).2 (0, 0, 0, 0) [] (by decide)⟩
